import Mathlib

/-!
Shallow embedding of the exercise subsystem of the wger workout manager
(files `wger/exercises/api/views.py`, `wger/exercises/models/exercise.py`,
`wger/exercises/views/history.py`).

The relational data visible to these files is modelled as lists of records
(`Db`); Django queryset operations become list operations; HTTP responses
become a status code paired with a `Json` value; exceptions raised while
dereferencing a nullable foreign key become `Except` errors or an explicit
`error` field on the result of a side-effecting operation.

Strings are compared at the level of their character lists (ASCII case
folding via `Char.toLower`), which models the case-insensitive `icontains`
lookups and the database collation used for ordering.
-/

namespace Wger

/-! ## String utilities -/

/-- Lexicographic order on character lists (codepoint order), modelling the
database ordering of text columns used by `order_by`. -/
def charListLe : List Char → List Char → Bool
  | [], _ => true
  | _ :: _, [] => false
  | a :: as, b :: bs => if a = b then charListLe as bs else decide (a < b)

/-- `containsSub needle hay` is true when `needle` occurs contiguously in
`hay`; it models substring containment as used by `icontains`. -/
def containsSub (needle : List Char) : List Char → Bool
  | [] => needle.isEmpty
  | c :: t => needle.isPrefixOf (c :: t) || containsSub needle t

/-- ASCII lower-casing of a string, as a character list. -/
def lowerList (s : String) : List Char := s.toList.map Char.toLower

/-- Model of the Django `icontains` lookup: case-insensitive substring test. -/
def icontains (hay needle : String) : Bool :=
  containsSub (lowerList needle) (lowerList hay)

/-- Strip leading and trailing whitespace, as Python `int(str)` does before
parsing. -/
def pyStrip (l : List Char) : List Char :=
  ((l.dropWhile Char.isWhitespace).reverse.dropWhile Char.isWhitespace).reverse

/-- Characters allowed after the first digit of a Python integer literal:
digits, with single underscores permitted between digits. -/
def pyDigitsTail : List Char → Bool
  | [] => true
  | '_' :: c :: t => c.isDigit && pyDigitsTail t
  | c :: t => c.isDigit && pyDigitsTail t

/-- A non-empty digit sequence in Python `int` syntax (first character must
be a digit, no leading underscore). -/
def pyIntBody : List Char → Bool
  | [] => false
  | c :: t => c.isDigit && pyDigitsTail t

/-- Numeric value of a digit sequence, skipping grouping underscores. -/
def pyDigitVal (l : List Char) : Nat :=
  l.foldl (fun acc c => if c = '_' then acc else acc * 10 + (c.toNat - 48)) 0

/-- Model of Python `int(str)`: strip whitespace, optional sign, digits.
Returns `none` where Python raises `ValueError`. -/
def pyIntChars (l : List Char) : Option Int :=
  match pyStrip l with
  | '+' :: rest => if pyIntBody rest then some (pyDigitVal rest) else none
  | '-' :: rest => if pyIntBody rest then some (-(pyDigitVal rest : Int)) else none
  | rest => if pyIntBody rest then some (pyDigitVal rest) else none

/-- Model of Python `int(str)` on a `String`. -/
def pyInt? (s : String) : Option Int := pyIntChars s.toList

/-- Model of Python `str.split(',')`: splitting on commas, keeping empty
pieces (`"".split(',') == ['']`). -/
def splitComma : List Char → List (List Char)
  | [] => [[]]
  | c :: t =>
    match splitComma t with
    | [] => [[]]
    | h :: r => if c = ',' then [] :: h :: r else (c :: h) :: r

/-- Model of `[int(m) for m in s.split(',')]`: `none` when any piece fails
to parse (the `ValueError` caught by the view). -/
def parseIds (s : String) : Option (List Int) :=
  (splitComma s.toList).mapM pyIntChars

/-! ## Data model

Records for the rows these files read, with the fields they actually
touch. Foreign keys are row ids (`Nat`); the one nullable foreign key in
this code, `Exercise.exercise_base` (declared `null=True, default=None`),
is an `Option Nat`. -/

structure Language where
  id : Nat
deriving DecidableEq, Repr

structure ExerciseCategory where
  id : Nat
  name : String
deriving DecidableEq, Repr

structure ExerciseBase where
  id : Nat
  category_id : Nat
  muscles : List Nat
  muscles_secondary : List Nat
  equipment : List Nat
  license_id : Nat
deriving DecidableEq, Repr

structure Exercise where
  id : Nat
  name : String
  description : String
  language_id : Nat
  exercise_base : Option Nat
deriving DecidableEq, Repr

/-- An alternative name for an exercise (`Alias` model, foreign key to
`Exercise`). -/
structure Alias where
  id : Nat
  exercise_id : Nat
  «alias» : String
deriving DecidableEq, Repr

/-- Review status of an exercise image. Modelled from the spec: the
`accepted()` queryset method of `ExerciseImage` (its model is not part of
this excerpt) keeps exactly the images whose status is accepted. -/
inductive ImageStatus where
  | pending
  | accepted
  | declined
deriving DecidableEq, Repr

structure ExerciseImage where
  id : Nat
  exercise_base_id : Nat
  is_main : Bool
  status : ImageStatus
  url : String
deriving DecidableEq, Repr

/-- A workout log setting row (`setting_set` on `ExerciseBase`): foreign
keys to the set that contains it and to the exercise base it references. -/
structure Setting where
  id : Nat
  set_id : Nat
  exercise_base_id : Nat
deriving DecidableEq, Repr

/-- A workout set row (`Set` model; renamed to avoid the Lean `Set`). -/
structure WorkoutSet where
  id : Nat
  exerciseday_id : Nat
deriving DecidableEq, Repr

structure ExerciseDay where
  id : Nat
  training_id : Nat
deriving DecidableEq, Repr

/-- The database state visible to the embedded code. -/
structure Db where
  languages : List Language
  categories : List ExerciseCategory
  bases : List ExerciseBase
  exercises : List Exercise
  aliases : List Alias
  images : List ExerciseImage
  settings : List Setting
  sets : List WorkoutSet
  exercisedays : List ExerciseDay
deriving Repr

/-- Resolve the `exercise_base` foreign key of an exercise, `none` when the
key is null or dangling. -/
def exerciseBase (db : Db) (e : Exercise) : Option ExerciseBase :=
  e.exercise_base.bind (fun bid => db.bases.find? (fun b => b.id = bid))

/-- Name of the category of an exercise's base (`exercise_base__category__name`),
empty when the chain does not resolve. -/
def categoryName (db : Db) (e : Exercise) : String :=
  match exerciseBase db e with
  | none => ""
  | some b =>
    match db.categories.find? (fun c => c.id = b.category_id) with
    | none => ""
    | some c => c.name

/-! ## JSON response values -/

inductive Json where
  | null
  | str (s : String)
  | num (n : Int)
  | arr (elems : List Json)
  | obj (fields : List (String × Json))

/-! ## Cache side effects of `Exercise.save` / `Exercise.delete`

`wger/exercises/models/exercise.py`, lines 118-149. Both methods first
delete the three per-language template-fragment caches, then walk
`self.exercise_base.setting_set` to reset the canonical form of every
workout referenced through `setting -> set -> exerciseday -> training`.
Because `exercise_base` is nullable, that walk raises `AttributeError`
when the field is null; the fragment deletions have already happened at
that point. -/

inductive CacheOp where
  | deleteFragment (fragment : String) (languageId : Nat)
  | resetWorkout (trainingId : Nat)
deriving DecidableEq, Repr

/-- The cache operations performed by a save or delete, in order, together
with the exception (if any) that interrupted the method. -/
structure SaveResult where
  ops : List CacheOp
  error : Option String
deriving Repr

/-- The per-language template-fragment deletions performed by both `save`
and `delete`. -/
def fragmentOps (db : Db) : List CacheOp :=
  db.languages.flatMap (fun l =>
    [CacheOp.deleteFragment "muscle-overview" l.id,
     CacheOp.deleteFragment "exercise-overview" l.id,
     CacheOp.deleteFragment "equipment-overview" l.id])

/-- The canonical-form resets for every workout reachable from the base
through `setting -> set -> exerciseday -> training` (a relational join on
the non-null foreign keys of those rows). -/
def workoutResetOps (db : Db) (baseId : Nat) : List CacheOp :=
  (db.settings.filter (fun s => s.exercise_base_id = baseId)).flatMap (fun s =>
    (db.sets.filter (fun st => st.id = s.set_id)).flatMap (fun st =>
      (db.exercisedays.filter (fun d => d.id = st.exerciseday_id)).map (fun d =>
        CacheOp.resetWorkout d.training_id)))

/-- Cache side effects of `Exercise.save` (the row itself was persisted by
`super().save()` before any of these run). -/
def Exercise.save (db : Db) (e : Exercise) : SaveResult :=
  match e.exercise_base with
  | none =>
    { ops := fragmentOps db,
      error := some "AttributeError: NoneType object has no attribute setting_set" }
  | some b => { ops := fragmentOps db ++ workoutResetOps db b, error := none }

/-- Cache side effects of `Exercise.delete` (`super().delete()` runs only
after all of these, so an `AttributeError` also prevents the deletion). -/
def Exercise.delete (db : Db) (e : Exercise) : SaveResult :=
  match e.exercise_base with
  | none =>
    { ops := fragmentOps db,
      error := some "AttributeError: NoneType object has no attribute setting_set" }
  | some b => { ops := fragmentOps db ++ workoutResetOps db b, error := none }

/-! ## `ExerciseViewSet.get_queryset` (`api/views.py`, lines 162-204)

Each query parameter is applied in turn; a missing or empty parameter is
skipped (`if category:`), and a value that fails `int()` parsing is logged
and skipped (`except ValueError`). -/

structure ExerciseListParams where
  category : Option String
  muscles : Option String
  muscles_secondary : Option String
  equipment : Option String
  license : Option String
deriving Repr

/-- `qs.filter(exercise_base__category_id=int(category))` guarded by
truthiness and `int()` parsing. -/
def filterCategory (db : Db) (p : Option String) (qs : List Exercise) : List Exercise :=
  match p with
  | none => qs
  | some c =>
    if c = "" then qs
    else
      match pyInt? c with
      | some n => qs.filter (fun e => (exerciseBase db e).any (fun b => (b.category_id : Int) = n))
      | none => qs

/-- `qs.filter(exercise_base__muscles__in=[int(m) for m in muscles.split(',')])`. -/
def filterMuscles (db : Db) (p : Option String) (qs : List Exercise) : List Exercise :=
  match p with
  | none => qs
  | some m =>
    if m = "" then qs
    else
      match parseIds m with
      | some ids =>
        qs.filter (fun e =>
          (exerciseBase db e).any (fun b => b.muscles.any (fun mu => ids.contains (mu : Int))))
      | none => qs

/-- `qs.filter(exercise_base__muscles_secondary__in=muscle_ids)`. -/
def filterMusclesSecondary (db : Db) (p : Option String) (qs : List Exercise) : List Exercise :=
  match p with
  | none => qs
  | some m =>
    if m = "" then qs
    else
      match parseIds m with
      | some ids =>
        qs.filter (fun e =>
          (exerciseBase db e).any (fun b =>
            b.muscles_secondary.any (fun mu => ids.contains (mu : Int))))
      | none => qs

/-- `qs.filter(exercise_base__equipment__in=[int(e) for e in equipment.split(',')])`. -/
def filterEquipment (db : Db) (p : Option String) (qs : List Exercise) : List Exercise :=
  match p with
  | none => qs
  | some m =>
    if m = "" then qs
    else
      match parseIds m with
      | some ids =>
        qs.filter (fun e =>
          (exerciseBase db e).any (fun b => b.equipment.any (fun eq => ids.contains (eq : Int))))
      | none => qs

/-- `qs.filter(exercise_base__license_id=int(license))`. -/
def filterLicense (db : Db) (p : Option String) (qs : List Exercise) : List Exercise :=
  match p with
  | none => qs
  | some c =>
    if c = "" then qs
    else
      match pyInt? c with
      | some n => qs.filter (fun e => (exerciseBase db e).any (fun b => (b.license_id : Int) = n))
      | none => qs

/-- `ExerciseViewSet.get_queryset`: the five extra filters applied in the
order of the source. -/
def get_queryset (db : Db) (p : ExerciseListParams) : List Exercise :=
  filterLicense db p.license
    (filterEquipment db p.equipment
      (filterMusclesSecondary db p.muscles_secondary
        (filterMuscles db p.muscles
          (filterCategory db p.category db.exercises))))

/-! ## `main_image` (`models/exercise.py`, lines 199-204)

`self.images.accepted().filter(is_main=True).first()`; `self.images` is
`self.exercise_base.exerciseimage_set`, so a null `exercise_base` raises. -/

/-- Modelled from the spec: the `accepted()` queryset method of
`ExerciseImage` (whose model is not part of this excerpt) keeps the images
with accepted status. -/
def ExerciseImage.isAccepted (i : ExerciseImage) : Bool :=
  i.status = ImageStatus.accepted

/-- `Exercise.main_image`: first accepted image of the base flagged
`is_main`, `none` when there is no such image, an error when
`exercise_base` is null. -/
def main_image (db : Db) (e : Exercise) : Except String (Option ExerciseImage) :=
  match e.exercise_base with
  | none => Except.error "AttributeError: NoneType object has no attribute exerciseimage_set"
  | some b =>
    Except.ok
      ((((db.images.filter (fun i => i.exercise_base_id = b)).filter
          (fun i => i.isAccepted)).filter (fun i => i.is_main)).head?)

/-! ## The `search` view (`api/views.py`, lines 207-252)

The queryset is
`Exercise.objects.filter(Q(name__icontains=q) | Q(alias__alias__icontains=q))
 .filter(language__in=languages).order_by('exercise_base__category__name', 'name')
 .distinct()`.
The first filter is a LEFT JOIN against `Alias`: an exercise with no
aliases contributes one row kept iff its name matches; an exercise with
aliases contributes one row per alias, kept iff the name or that alias
matches — hence the duplicates that `.distinct()` removes. -/

/-- The join rows contributed by one exercise: one row when it has no
aliases (kept iff the name matches), otherwise one row per alias (kept iff
the name or that alias matches). -/
def joinRowsFor (db : Db) (q : String) (e : Exercise) : List Exercise :=
  match db.aliases.filter (fun a => a.exercise_id = e.id) with
  | [] => if icontains e.name q then [e] else []
  | a :: t =>
    (a :: t).filterMap (fun a2 =>
      if icontains e.name q || icontains a2.alias q then some e else none)

/-- Rows of the LEFT JOIN with the OR condition, before language filtering. -/
def searchQueryRows (db : Db) (q : String) : List Exercise :=
  db.exercises.flatMap (joinRowsFor db q)

/-- The condition under which an exercise appears in the join at all: its
name matches, or one of its aliases matches. -/
def matchesTerm (db : Db) (q : String) (e : Exercise) : Bool :=
  icontains e.name q ||
    (db.aliases.filter (fun a => a.exercise_id = e.id)).any (fun a => icontains a.alias q)

/-- Sort key of `order_by('exercise_base__category__name', 'name')`. -/
def searchKey (db : Db) (e : Exercise) : List Char × List Char :=
  ((categoryName db e).toList, e.name.toList)

/-- Lexicographic comparison of two sort keys. -/
def pairLe (a b : List Char × List Char) : Bool :=
  if a.1 = b.1 then charListLe a.2 b.2 else charListLe a.1 b.1

/-- Comparison used to order search results: category name, then name. -/
def searchKeyLe (db : Db) (a b : Exercise) : Bool :=
  pairLe (searchKey db a) (searchKey db b)

/-- The search queryset: join rows, language filter, `order_by`, `distinct`. -/
def search (db : Db) (languages : List Nat) (q : String) : List Exercise :=
  (((searchQueryRows db q).filter (fun e => languages.contains e.language_id)).mergeSort
    (searchKeyLe db)).dedup

/-- Serialization of one suggestion: name, id, translated category label,
image URL and thumbnail URL of the main image when there is one. The
thumbnailer is abstracted as `thumb`. `exercise.main_image` and
`exercise.category` both dereference `exercise_base`, so serialization can
raise. -/
def suggestionJson (db : Db) (thumb : String → String) (e : Exercise) : Except String Json := do
  let img ← main_image db e
  let (image, thumbnail) :=
    match img with
    | some i => (Json.str i.url, Json.str (thumb i.url))
    | none => (Json.null, Json.null)
  Except.ok (Json.obj
    [("value", Json.str e.name),
     ("data", Json.obj
       [("id", Json.num e.id),
        ("name", Json.str e.name),
        ("category", Json.str (categoryName db e)),
        ("image", image),
        ("image_thumbnail", thumbnail)])])

/-- The `search` view. `term?` is `request.GET.get('term', None)`;
`languages` is the result of `load_item_languages` (resolved outside this
excerpt); the response is a status code and a JSON body. A missing or
empty term skips the whole body of the `if`, so the response is the empty
JSON object, not an object with a `suggestions` key. -/
def searchView (db : Db) (languages : List Nat) (thumb : String → String)
    (term? : Option String) : Except String (Nat × Json) :=
  match term? with
  | none => Except.ok (200, Json.obj [])
  | some q =>
    if q = "" then Except.ok (200, Json.obj [])
    else do
      let results ← (search db languages q).mapM (suggestionJson db thumb)
      Except.ok (200, Json.obj [("suggestions", Json.arr results)])

/-! ## `ExerciseImageViewSet.thumbnails` (`api/views.py`, lines 331-349)

An unknown primary key is caught (`ExerciseImage.DoesNotExist`) and
answered with `Response([])` — an empty JSON list with success status. -/

/-- The thumbnails action. `aliasNames` is the configured thumbnail alias
list and `render` the thumbnailer (both external collaborators). -/
def thumbnails (aliasNames : List String) (render : String → String → Json)
    (db : Db) (pk : Nat) : Nat × Json :=
  match db.images.find? (fun i => i.id = pk) with
  | none => (200, Json.arr [])
  | some image =>
    (200, Json.obj
      ((aliasNames.map (fun a => (a, render a image.url))) ++
        [("original", Json.str image.url)]))

/-! ## Creating an exercise translation

The `description` field (`models/exercise.py`, lines 52-56) carries
`MinLengthValidator(40)` and `max_length=2000`. -/

/-- The validators declared on `Exercise.description` in the source: a
minimum length of 40 and a maximum length of 2000 characters. Returns the
names of the failing fields. -/
def validateExercise (e : Exercise) : List String :=
  (if e.description.length < 40 then ["description"] else []) ++
    (if 2000 < e.description.length then ["description"] else [])

/-- Modelled from the spec: the REST framework write path (serializer and
`CreateUpdateModelViewSet`, not part of this excerpt) runs the declared
field validators and persists the instance only when all pass, otherwise
answering with a structured validation error enumerating the failing
fields. -/
def createExercise (db : Db) (e : Exercise) : Except (List String) Db :=
  match validateExercise e with
  | [] => Except.ok { db with exercises := db.exercises ++ [e] }
  | errs => Except.error errs

/-! ## The field-level history view (`views/history.py`, lines 50-60) -/

/-- The field content of one historical revision of an exercise. -/
structure ExerciseSnapshot where
  name : String
  description : String
  license_author : String
deriving DecidableEq, Repr

/-- One entry of `Exercise.history.all()`. Modelled from the spec: the
history machinery (`simple_history`, not part of this excerpt) attaches to
each revision its previous revision of the same instance, or `None` for
the first revision. -/
structure HistoricalExercise where
  instance_id : Nat
  snapshot : ExerciseSnapshot
  prev_record : Option ExerciseSnapshot
deriving DecidableEq, Repr

/-- Modelled from the spec: `diff_against` (from `simple_history`, not part
of this excerpt) computes the field-level diff of two revisions: the list
of fields whose values differ, with the old and the new value. -/
def diff_against (new old : ExerciseSnapshot) : List (String × String × String) :=
  (if new.name = old.name then [] else [("name", old.name, new.name)]) ++
    (if new.description = old.description then []
     else [("description", old.description, new.description)]) ++
    (if new.license_author = old.license_author then []
     else [("license_author", old.license_author, new.license_author)])

/-- `overview2`: keep the revisions that have a previous revision, each
paired with its diff against that previous revision. -/
def overview2 (history : List HistoricalExercise) :
    List (HistoricalExercise × List (String × String × String)) :=
  history.filterMap (fun entry =>
    entry.prev_record.map (fun prev => (entry, diff_against entry.snapshot prev)))

/-! ## Sample data

A small concrete database used to evaluate the theorems below on closed
inputs. -/

def sampleBase1 : ExerciseBase :=
  { id := 10, category_id := 2, muscles := [1], muscles_secondary := [],
    equipment := [3], license_id := 1 }

def sampleBase2 : ExerciseBase :=
  { id := 11, category_id := 1, muscles := [2], muscles_secondary := [1],
    equipment := [], license_id := 2 }

def sampleSquat : Exercise :=
  { id := 100, name := "Squat",
    description := "Stand upright and bend your knees until parallel, then rise.",
    language_id := 1, exercise_base := some 10 }

def sampleCurl : Exercise :=
  { id := 101, name := "Curl",
    description := "Hold the bar and flex your elbows slowly upward, then lower.",
    language_id := 1, exercise_base := some 11 }

def samplePress : Exercise :=
  { id := 102, name := "Press",
    description := "Push the bar overhead until your arms are fully extended.",
    language_id := 2, exercise_base := some 11 }

/-- An exercise whose nullable `exercise_base` foreign key is null (the
declared default). -/
def sampleOrphan : Exercise :=
  { id := 103, name := "Ghost",
    description := "An exercise row whose base reference was never filled in.",
    language_id := 1, exercise_base := none }

/-- An exercise translation whose description is below the 40-character
minimum. -/
def sampleShortDesc : Exercise :=
  { id := 104, name := "Stub", description := "Too short.",
    language_id := 1, exercise_base := some 10 }

def sampleDb : Db :=
  { languages := [{ id := 1 }, { id := 2 }],
    categories := [{ id := 1, name := "Arms" }, { id := 2, name := "Legs" }],
    bases := [sampleBase1, sampleBase2],
    exercises := [sampleSquat, sampleCurl, samplePress],
    aliases :=
      [{ id := 1, exercise_id := 101, «alias» := "Biceps squat curl" },
       { id := 2, exercise_id := 101, «alias» := "curlmania" }],
    images :=
      [{ id := 1, exercise_base_id := 10, is_main := true,
         status := ImageStatus.pending, url := "pending.png" },
       { id := 2, exercise_base_id := 10, is_main := true,
         status := ImageStatus.accepted, url := "main.png" },
       { id := 3, exercise_base_id := 10, is_main := false,
         status := ImageStatus.accepted, url := "side.png" }],
    settings := [{ id := 1, set_id := 5, exercise_base_id := 10 }],
    sets := [{ id := 5, exerciseday_id := 7 }],
    exercisedays := [{ id := 7, training_id := 42 }] }

/-! ## Helper lemmas -/

theorem charListLe_total (a : List Char) :
    ∀ b, (charListLe a b || charListLe b a) = true := by
  induction a with
  | nil => intro b; simp [charListLe]
  | cons x xs ih =>
    intro b
    cases b with
    | nil => simp [charListLe]
    | cons y ys =>
      by_cases hxy : x = y
      · subst hxy
        simp only [charListLe, if_pos rfl]
        exact ih ys
      · have hyx : y ≠ x := fun h => hxy h.symm
        simp only [charListLe, if_neg hxy, if_neg hyx]
        rcases lt_or_gt_of_ne hxy with h | h
        · simp [h]
        · simp [h]

theorem charListLe_trans (a : List Char) :
    ∀ b c, charListLe a b = true → charListLe b c = true → charListLe a c = true := by
  induction a with
  | nil => intro b c _ _; simp [charListLe]
  | cons x xs ih =>
    intro b c hab hbc
    cases b with
    | nil => simp [charListLe] at hab
    | cons y ys =>
      cases c with
      | nil => simp [charListLe] at hbc
      | cons z zs =>
        by_cases hxy : x = y
        · subst hxy
          simp only [charListLe, if_pos rfl] at hab
          by_cases hyz : x = z
          · subst hyz
            simp only [charListLe, if_pos rfl] at hbc ⊢
            exact ih ys zs hab hbc
          · simp only [charListLe, if_neg hyz] at hbc ⊢
            exact hbc
        · simp only [charListLe, if_neg hxy] at hab
          have hxyl : x < y := by simpa using hab
          by_cases hyz : y = z
          · subst hyz
            simp only [charListLe, if_neg hxy]
            simp [hxyl]
          · simp only [charListLe, if_neg hyz] at hbc
            have hyzl : y < z := by simpa using hbc
            have hxzl : x < z := lt_trans hxyl hyzl
            have hxz : x ≠ z := ne_of_lt hxzl
            simp only [charListLe, if_neg hxz]
            simp [hxzl]

theorem charListLe_antisymm (a : List Char) :
    ∀ b, charListLe a b = true → charListLe b a = true → a = b := by
  induction a with
  | nil =>
    intro b hab hba
    cases b with
    | nil => rfl
    | cons y ys => simp [charListLe] at hba
  | cons x xs ih =>
    intro b hab hba
    cases b with
    | nil => simp [charListLe] at hab
    | cons y ys =>
      by_cases hxy : x = y
      · subst hxy
        simp only [charListLe, if_pos rfl] at hab hba
        rw [ih ys hab hba]
      · have hyx : y ≠ x := fun h => hxy h.symm
        simp only [charListLe, if_neg hxy] at hab
        simp only [charListLe, if_neg hyx] at hba
        have h1 : x < y := by simpa using hab
        have h2 : y < x := by simpa using hba
        exact absurd h2 (lt_asymm h1)

theorem pairLe_trans (a b c : List Char × List Char)
    (hab : pairLe a b = true) (hbc : pairLe b c = true) : pairLe a c = true := by
  unfold pairLe at *
  by_cases h1 : a.1 = b.1
  · rw [if_pos h1] at hab
    by_cases h2 : b.1 = c.1
    · rw [if_pos h2] at hbc
      rw [if_pos (h1.trans h2)]
      exact charListLe_trans _ _ _ hab hbc
    · rw [if_neg h2] at hbc
      have hac : a.1 ≠ c.1 := fun h => h2 (h1 ▸ h)
      rw [if_neg hac, h1]
      exact hbc
  · rw [if_neg h1] at hab
    by_cases h2 : b.1 = c.1
    · rw [if_pos h2] at hbc
      have hac : a.1 ≠ c.1 := fun h => h1 (h.trans h2.symm)
      rw [if_neg hac]
      exact h2 ▸ hab
    · rw [if_neg h2] at hbc
      have hac : a.1 ≠ c.1 := by
        intro h
        exact h1 (charListLe_antisymm _ _ hab (h ▸ hbc))
      rw [if_neg hac]
      exact charListLe_trans _ _ _ hab hbc

theorem pairLe_total (a b : List Char × List Char) :
    (pairLe a b || pairLe b a) = true := by
  unfold pairLe
  by_cases h : a.1 = b.1
  · rw [if_pos h, if_pos h.symm]
    exact charListLe_total a.2 b.2
  · rw [if_neg h, if_neg (fun h2 => h h2.symm)]
    exact charListLe_total a.1 b.1

theorem searchKeyLe_trans (db : Db) (a b c : Exercise)
    (hab : searchKeyLe db a b = true) (hbc : searchKeyLe db b c = true) :
    searchKeyLe db a c = true :=
  pairLe_trans _ _ _ hab hbc

theorem searchKeyLe_total (db : Db) (a b : Exercise) :
    (searchKeyLe db a b || searchKeyLe db b a) = true :=
  pairLe_total _ _

theorem mem_joinRowsFor (db : Db) (q : String) (e e2 : Exercise) :
    e2 ∈ joinRowsFor db q e ↔ e2 = e ∧ matchesTerm db q e = true := by
  unfold joinRowsFor matchesTerm
  cases hals : db.aliases.filter (fun a => a.exercise_id = e.id) with
  | nil =>
    by_cases hname : icontains e.name q
    · simp [hname]
    · simp [hname]
  | cons a t =>
    simp only [List.mem_filterMap]
    constructor
    · rintro ⟨a2, ha2, heq⟩
      by_cases hc : (icontains e.name q || icontains a2.alias q) = true
      · rw [if_pos hc, Option.some.injEq] at heq
        subst heq
        refine ⟨rfl, ?_⟩
        have hc2 : icontains e.name q = true ∨ icontains a2.alias q = true := by
          simpa using hc
        rcases hc2 with h | h
        · simp [h]
        · simp only [Bool.or_eq_true]
          exact Or.inr (List.any_eq_true.mpr ⟨a2, ha2, h⟩)
      · rw [if_neg hc] at heq
        exact absurd heq (by simp)
    · rintro ⟨rfl, hm⟩
      have hm2 : icontains e2.name q = true ∨
          ∃ a2 ∈ a :: t, icontains a2.alias q = true := by
        simpa [List.any_eq_true] using hm
      rcases hm2 with h | ⟨a2, ha2, hmatch⟩
      · exact ⟨a, List.mem_cons_self a t, by simp [h]⟩
      · exact ⟨a2, ha2, by simp [hmatch]⟩

theorem mem_searchQueryRows (db : Db) (q : String) (e : Exercise) :
    e ∈ searchQueryRows db q ↔ e ∈ db.exercises ∧ matchesTerm db q e = true := by
  unfold searchQueryRows
  simp only [List.mem_flatMap]
  constructor
  · rintro ⟨e2, he2, hmem⟩
    rcases (mem_joinRowsFor db q e2 e).mp hmem with ⟨rfl, hm⟩
    exact ⟨he2, hm⟩
  · rintro ⟨he, hm⟩
    exact ⟨e, he, (mem_joinRowsFor db q e e).mpr ⟨rfl, hm⟩⟩

theorem head?_filter_eq_find? (p : α → Bool) (l : List α) :
    (l.filter p).head? = l.find? p := by
  induction l with
  | nil => rfl
  | cons a t ih =>
    by_cases h : p a
    · simp [List.filter_cons, List.find?_cons, h]
    · simp only [List.filter_cons, List.find?_cons]
      rw [if_neg (by simpa using h)]
      cases hpa : p a with
      | true => exact absurd hpa h
      | false => exact ih

theorem filter_filter_and (p q : α → Bool) (l : List α) :
    (l.filter p).filter q = l.filter (fun a => p a && q a) := by
  induction l with
  | nil => rfl
  | cons a t ih =>
    by_cases hp : p a <;> by_cases hq : q a <;>
      simp [List.filter_cons, hp, hq, ih]

theorem filterCategory_invalid (db : Db) {s : String} (hs : s ≠ "")
    (hp : pyInt? s = none) (qs : List Exercise) :
    filterCategory db (some s) qs = filterCategory db none qs := by
  simp [filterCategory, hs, hp]

theorem filterMuscles_invalid (db : Db) {s : String} (hs : s ≠ "")
    (hp : parseIds s = none) (qs : List Exercise) :
    filterMuscles db (some s) qs = filterMuscles db none qs := by
  simp [filterMuscles, hs, hp]

theorem filterMusclesSecondary_invalid (db : Db) {s : String} (hs : s ≠ "")
    (hp : parseIds s = none) (qs : List Exercise) :
    filterMusclesSecondary db (some s) qs = filterMusclesSecondary db none qs := by
  simp [filterMusclesSecondary, hs, hp]

theorem filterEquipment_invalid (db : Db) {s : String} (hs : s ≠ "")
    (hp : parseIds s = none) (qs : List Exercise) :
    filterEquipment db (some s) qs = filterEquipment db none qs := by
  simp [filterEquipment, hs, hp]

theorem filterLicense_invalid (db : Db) {s : String} (hs : s ≠ "")
    (hp : pyInt? s = none) (qs : List Exercise) :
    filterLicense db (some s) qs = filterLicense db none qs := by
  simp [filterLicense, hs, hp]

/-! ## Claims -/

/-- Claim C1, counterexample to the claim as stated: for an empty `term`
the view returns the empty JSON object with status 200, not the object
`{"suggestions": []}` the claim announces. -/
theorem search_blank_term_suggestions_counterexample :
    searchView sampleDb [1] (fun s => s) (some "") = Except.ok (200, Json.obj []) ∧
      Json.obj [] ≠ Json.obj [("suggestions", Json.arr [])] :=
  ⟨rfl, by simp⟩

/-- Claim C1 (amended): for every search request whose `term` query
parameter is absent or empty, the search operation returns the empty JSON
object with success status 200 (the `suggestions` key is only set inside
the `if q:` branch). -/
theorem search_blank_term_returns_empty_object (db : Db) (languages : List Nat)
    (thumb : String → String) (term? : Option String)
    (h : term? = none ∨ term? = some "") :
    searchView db languages thumb term? = Except.ok (200, Json.obj []) := by
  rcases h with rfl | rfl
  · rfl
  · simp [searchView]

/-- Witness for `search_blank_term_returns_empty_object` at a concrete
request. -/
theorem search_blank_term_returns_empty_object_witness :
    ((some "" : Option String) = none ∨ (some "" : Option String) = some "") ∧
      searchView sampleDb [1] (fun s => s) (some "") = Except.ok (200, Json.obj []) :=
  ⟨Or.inr rfl,
    search_blank_term_returns_empty_object sampleDb [1] (fun s => s) (some "") (Or.inr rfl)⟩

/-- Claim C2, counterexample to the claim as stated: for an image id that
does not resolve, the view answers `Response([])`, a JSON list, which is
not an empty mapping. -/
theorem thumbnails_unknown_id_mapping_counterexample :
    thumbnails ["micro_cropped"] (fun _ u => Json.str u) sampleDb 999 =
        (200, Json.arr []) ∧
      Json.arr [] ≠ Json.obj [] :=
  ⟨rfl, by simp⟩

/-- Claim C2 (amended): for every thumbnails request whose image id does
not resolve to an existing ExerciseImage, the operation returns the empty
JSON list with success status 200, not a not-found error. -/
theorem thumbnails_unknown_id_returns_empty_list (aliasNames : List String)
    (render : String → String → Json) (db : Db) (pk : Nat)
    (h : ∀ i ∈ db.images, i.id ≠ pk) :
    thumbnails aliasNames render db pk = (200, Json.arr []) := by
  have hf : db.images.find? (fun i => i.id = pk) = none := by
    rw [List.find?_eq_none]
    intro i hi
    simpa using h i hi
  simp [thumbnails, hf]

/-- Witness for `thumbnails_unknown_id_returns_empty_list` at a concrete
request. -/
theorem thumbnails_unknown_id_returns_empty_list_witness :
    (∀ i ∈ sampleDb.images, i.id ≠ 999) ∧
      thumbnails ["micro_cropped"] (fun _ u => Json.str u) sampleDb 999 =
        (200, Json.arr []) :=
  ⟨by decide,
    thumbnails_unknown_id_returns_empty_list ["micro_cropped"] (fun _ u => Json.str u)
      sampleDb 999 (by decide)⟩

/-- Claim C3: saving any Exercise deletes the `muscle-overview`,
`exercise-overview` and `equipment-overview` cached template fragments for
every language known to the system (this holds whether or not the
subsequent walk of `exercise_base` raises, because the fragment loop runs
first). -/
theorem save_invalidates_overview_fragments (db : Db) (e : Exercise) (l : Language)
    (hl : l ∈ db.languages) :
    CacheOp.deleteFragment "muscle-overview" l.id ∈ (Exercise.save db e).ops ∧
      CacheOp.deleteFragment "exercise-overview" l.id ∈ (Exercise.save db e).ops ∧
      CacheOp.deleteFragment "equipment-overview" l.id ∈ (Exercise.save db e).ops := by
  have hops : ∀ op, op ∈ fragmentOps db → op ∈ (Exercise.save db e).ops := by
    intro op hop
    cases hb : e.exercise_base with
    | none => simpa [Exercise.save, hb] using hop
    | some b =>
      simp only [Exercise.save, hb, List.mem_append]
      exact Or.inl hop
  refine ⟨hops _ ?_, hops _ ?_, hops _ ?_⟩ <;>
    exact List.mem_flatMap.mpr ⟨l, hl, by simp⟩

/-- Witness for `save_invalidates_overview_fragments` at a concrete
database and exercise. -/
theorem save_invalidates_overview_fragments_witness :
    ({ id := 1 } : Language) ∈ sampleDb.languages ∧
      (CacheOp.deleteFragment "muscle-overview" 1 ∈ (Exercise.save sampleDb sampleSquat).ops ∧
        CacheOp.deleteFragment "exercise-overview" 1 ∈ (Exercise.save sampleDb sampleSquat).ops ∧
        CacheOp.deleteFragment "equipment-overview" 1 ∈ (Exercise.save sampleDb sampleSquat).ops) :=
  ⟨by decide, save_invalidates_overview_fragments sampleDb sampleSquat { id := 1 } (by decide)⟩

/-- Claim C4: deleting an Exercise resets the canonical-form workout cache
of every workout that references the exercise's base through an existing
setting, following the join `setting -> set -> exerciseday -> training`. -/
theorem delete_resets_referencing_workout_caches (db : Db) (e : Exercise) (b : Nat)
    (s : Setting) (st : WorkoutSet) (d : ExerciseDay)
    (hb : e.exercise_base = some b) (hs : s ∈ db.settings) (hsb : s.exercise_base_id = b)
    (hst : st ∈ db.sets) (hstid : st.id = s.set_id) (hd : d ∈ db.exercisedays)
    (hdid : d.id = st.exerciseday_id) :
    CacheOp.resetWorkout d.training_id ∈ (Exercise.delete db e).ops := by
  have hreset : CacheOp.resetWorkout d.training_id ∈ workoutResetOps db b := by
    unfold workoutResetOps
    refine List.mem_flatMap.mpr ⟨s, List.mem_filter.mpr ⟨hs, by simp [hsb]⟩, ?_⟩
    refine List.mem_flatMap.mpr ⟨st, List.mem_filter.mpr ⟨hst, by simp [hstid]⟩, ?_⟩
    exact List.mem_map.mpr ⟨d, List.mem_filter.mpr ⟨hd, by simp [hdid]⟩, rfl⟩
  simp only [Exercise.delete, hb, List.mem_append]
  exact Or.inr hreset

/-- Witness for `delete_resets_referencing_workout_caches`: in the sample
database, workout 42 references base 10 through setting 1, set 5 and
exercise day 7, and deleting the squat resets its cache. -/
theorem delete_resets_referencing_workout_caches_witness :
    (sampleSquat.exercise_base = some 10 ∧
        ({ id := 1, set_id := 5, exercise_base_id := 10 } : Setting) ∈ sampleDb.settings ∧
        ({ id := 5, exerciseday_id := 7 } : WorkoutSet) ∈ sampleDb.sets ∧
        ({ id := 7, training_id := 42 } : ExerciseDay) ∈ sampleDb.exercisedays) ∧
      CacheOp.resetWorkout 42 ∈ (Exercise.delete sampleDb sampleSquat).ops :=
  ⟨by decide,
    delete_resets_referencing_workout_caches sampleDb sampleSquat 10
      { id := 1, set_id := 5, exercise_base_id := 10 }
      { id := 5, exerciseday_id := 7 }
      { id := 7, training_id := 42 }
      (by decide) (by decide) (by decide) (by decide) (by decide) (by decide) (by decide)⟩

/-- Claim C5: for every exercise list request, if the supplied value of an
integer-valued filter parameter (`category`, `muscles`,
`muscles_secondary`, `equipment`, `license`) is a non-empty non-numeric
string, that filter is left unapplied while the remaining filters of the
request are still applied: the result equals the result of the same
request without that parameter. (`get_queryset` is a total function, so
the request never errors.) -/
theorem invalid_filter_params_are_dropped (db : Db) (p : ExerciseListParams)
    (s : String) (hs : s ≠ "") (hint : pyInt? s = none) (hids : parseIds s = none) :
    get_queryset db { p with category := some s } = get_queryset db { p with category := none } ∧
      get_queryset db { p with muscles := some s } = get_queryset db { p with muscles := none } ∧
      get_queryset db { p with muscles_secondary := some s } =
        get_queryset db { p with muscles_secondary := none } ∧
      get_queryset db { p with equipment := some s } =
        get_queryset db { p with equipment := none } ∧
      get_queryset db { p with license := some s } = get_queryset db { p with license := none } := by
  refine ⟨?_, ?_, ?_, ?_, ?_⟩ <;>
    simp [get_queryset, filterCategory_invalid db hs hint, filterMuscles_invalid db hs hids,
      filterMusclesSecondary_invalid db hs hids, filterEquipment_invalid db hs hids,
      filterLicense_invalid db hs hint]

/-- Witness for `invalid_filter_params_are_dropped` with the non-numeric
value `"abc"` on a request that also carries a valid `muscles` filter. -/
theorem invalid_filter_params_are_dropped_witness :
    (("abc" : String) ≠ "" ∧ pyInt? "abc" = none ∧ parseIds "abc" = none) ∧
      (get_queryset sampleDb
          { category := some "abc", muscles := some "2", muscles_secondary := none,
            equipment := none, license := none } =
        get_queryset sampleDb
          { category := none, muscles := some "2", muscles_secondary := none,
            equipment := none, license := none }) :=
  ⟨⟨by decide, by decide, by decide⟩,
    (invalid_filter_params_are_dropped sampleDb
      { category := none, muscles := some "2", muscles_secondary := none,
        equipment := none, license := none }
      "abc" (by decide) (by decide) (by decide)).1⟩

/-- Claim C6: for every search with a non-empty term, the resulting list
contains exactly the exercises of the resolved language set whose name or
some alias contains the term case-insensitively; each such exercise
appears at most once (even when the term matches both its name and an
alias, the LEFT JOIN duplicates are removed by `distinct`); and the list
is ordered by category name, then by exercise name. -/
theorem search_results_characterization (db : Db) (languages : List Nat) (q : String)
    (hq : q ≠ "") :
    (∀ e : Exercise, e ∈ search db languages q ↔
        (e ∈ db.exercises ∧ languages.contains e.language_id = true ∧
          (icontains e.name q = true ∨
            ∃ a ∈ db.aliases, a.exercise_id = e.id ∧ icontains a.alias q = true))) ∧
      (search db languages q).Nodup ∧
      (search db languages q).Pairwise (fun a b => searchKeyLe db a b = true) := by
  refine ⟨?_, List.nodup_dedup _, ?_⟩
  · intro e
    unfold search
    rw [List.mem_dedup, List.mem_mergeSort, List.mem_filter, mem_searchQueryRows]
    unfold matchesTerm
    simp only [Bool.or_eq_true, List.any_eq_true, List.mem_filter, decide_eq_true_eq]
    constructor
    · rintro ⟨⟨he, hm⟩, hlang⟩
      refine ⟨he, hlang, ?_⟩
      rcases hm with h | ⟨a, ⟨ha, haid⟩, hic⟩
      · exact Or.inl h
      · exact Or.inr ⟨a, ha, haid, hic⟩
    · rintro ⟨he, hlang, h | ⟨a, ha, haid, hic⟩⟩
      · exact ⟨⟨he, Or.inl h⟩, hlang⟩
      · exact ⟨⟨he, Or.inr ⟨a, ⟨ha, haid⟩, hic⟩⟩, hlang⟩
  · exact List.Pairwise.sublist (List.dedup_sublist _)
      (List.sorted_mergeSort (searchKeyLe_trans db) (searchKeyLe_total db) _)

/-- Witness for `search_results_characterization` on the sample database:
the term `squat` matches the squat by name and the curl by alias. -/
theorem search_results_characterization_witness :
    ("squat" : String) ≠ "" ∧
      ((∀ e : Exercise, e ∈ search sampleDb [1] "squat" ↔
          (e ∈ sampleDb.exercises ∧ [1].contains e.language_id = true ∧
            (icontains e.name "squat" = true ∨
              ∃ a ∈ sampleDb.aliases, a.exercise_id = e.id ∧
                icontains a.alias "squat" = true))) ∧
        (search sampleDb [1] "squat").Nodup ∧
        (search sampleDb [1] "squat").Pairwise
          (fun a b => searchKeyLe sampleDb a b = true)) :=
  ⟨by decide, search_results_characterization sampleDb [1] "squat" (by decide)⟩

/-- Claim C7: an Exercise whose description is shorter than 40 characters
fails the declared `MinLengthValidator(40)`, so the write is answered with
a validation error naming the `description` field and nothing is
persisted. -/
theorem short_description_rejected (db : Db) (e : Exercise)
    (h : e.description.length < 40) :
    (∃ errs, createExercise db e = Except.error errs ∧ "description" ∈ errs) ∧
      ∀ db2, createExercise db e ≠ Except.ok db2 := by
  have h2 : ¬(2000 < e.description.length) := by omega
  have hv : validateExercise e = ["description"] := by
    simp [validateExercise, h, h2]
  constructor
  · exact ⟨["description"], by simp [createExercise, hv], by simp⟩
  · intro db2
    simp [createExercise, hv]

/-- Witness for `short_description_rejected` with a ten-character
description. -/
theorem short_description_rejected_witness :
    sampleShortDesc.description.length < 40 ∧
      ((∃ errs, createExercise sampleDb sampleShortDesc = Except.error errs ∧
          "description" ∈ errs) ∧
        ∀ db2, createExercise sampleDb sampleShortDesc ≠ Except.ok db2) :=
  ⟨by decide, short_description_rejected sampleDb sampleShortDesc (by decide)⟩

/-- Claim C8: the field-level history view renders exactly the revisions
that have a previous revision, each paired with the field diff against
that previous revision; first revisions are skipped. -/
theorem overview2_pairs_revisions_with_prev_diff (history : List HistoricalExercise)
    (x : HistoricalExercise × List (String × String × String)) :
    x ∈ overview2 history ↔
      ∃ entry ∈ history, ∃ prev, entry.prev_record = some prev ∧
        x = (entry, diff_against entry.snapshot prev) := by
  unfold overview2
  rw [List.mem_filterMap]
  constructor
  · rintro ⟨entry, he, hmap⟩
    rcases Option.map_eq_some'.mp hmap with ⟨prev, hp, hx⟩
    exact ⟨entry, he, prev, hp, hx.symm⟩
  · rintro ⟨entry, he, prev, hp, rfl⟩
    exact ⟨entry, he, by rw [hp]; rfl⟩

/-- Claim C9: `save` and `delete` raise (an `AttributeError` while
dereferencing `exercise_base` to reset workout caches) exactly when the
nullable `exercise_base` field is null; under the data-model invariant
that every Exercise references a base, the error branch is unreachable. -/
theorem save_delete_error_iff_base_null (db : Db) (e : Exercise) :
    ((Exercise.save db e).error = none ↔ e.exercise_base ≠ none) ∧
      ((Exercise.delete db e).error = none ↔ e.exercise_base ≠ none) := by
  cases hb : e.exercise_base <;> simp [Exercise.save, Exercise.delete, hb]

/-- Claim C10, counterexample to the claim as stated: `main_image` does
raise on an Exercise whose `exercise_base` is null, because `self.images`
dereferences `self.exercise_base`. -/
theorem main_image_null_base_raises_counterexample :
    main_image sampleDb sampleOrphan =
      Except.error "AttributeError: NoneType object has no attribute exerciseimage_set" :=
  rfl

/-- Claim C10 (amended): for every Exercise whose `exercise_base` is
non-null, `main_image` never raises; it returns the first image of the
base that is accepted and flagged `is_main`, and `none` exactly when no
such image exists — a non-accepted image is never selected. When
`exercise_base` is null, `main_image` raises. -/
theorem main_image_with_base_characterization (db : Db) (e : Exercise) (b : Nat)
    (hb : e.exercise_base = some b) :
    main_image db e =
        Except.ok (db.images.find?
          (fun i => decide (i.exercise_base_id = b) && i.isAccepted && i.is_main)) ∧
      (main_image db e = Except.ok none ↔
        ¬∃ i ∈ db.images, i.exercise_base_id = b ∧ i.isAccepted = true ∧ i.is_main = true) ∧
      ∀ i, main_image db e = Except.ok (some i) →
        i ∈ db.images ∧ i.exercise_base_id = b ∧ i.isAccepted = true ∧ i.is_main = true := by
  have hmain : main_image db e =
      Except.ok ((db.images.filter
        (fun i => decide (i.exercise_base_id = b) && i.isAccepted && i.is_main)).head?) := by
    simp only [main_image, hb, filter_filter_and]
  rw [head?_filter_eq_find?] at hmain
  refine ⟨hmain, ?_, ?_⟩
  · rw [hmain]
    simp only [Except.ok.injEq]
    rw [List.find?_eq_none]
    constructor
    · rintro hnone ⟨i, hi, hbase, hacc, hmainflag⟩
      exact hnone i hi (by simp [hbase, hacc, hmainflag])
    · intro hnot i hi hp
      simp only [Bool.and_eq_true, decide_eq_true_eq] at hp
      exact hnot ⟨i, hi, hp.1.1, hp.1.2, hp.2⟩
  · intro i hok
    rw [hmain] at hok
    simp only [Except.ok.injEq] at hok
    have hmem := List.mem_of_find?_eq_some hok
    have hp := List.find?_some hok
    simp only [Bool.and_eq_true, decide_eq_true_eq] at hp
    exact ⟨hmem, hp.1.1, hp.1.2, hp.2⟩

/-- Witness for `main_image_with_base_characterization`: the squat's base
has a pending main image and an accepted one; the characterization applies
to it. -/
theorem main_image_with_base_characterization_witness :
    sampleSquat.exercise_base = some 10 ∧
      (main_image sampleDb sampleSquat =
          Except.ok (sampleDb.images.find?
            (fun i => decide (i.exercise_base_id = 10) && i.isAccepted && i.is_main)) ∧
        (main_image sampleDb sampleSquat = Except.ok none ↔
          ¬∃ i ∈ sampleDb.images, i.exercise_base_id = 10 ∧ i.isAccepted = true ∧
            i.is_main = true) ∧
        ∀ i, main_image sampleDb sampleSquat = Except.ok (some i) →
          i ∈ sampleDb.images ∧ i.exercise_base_id = 10 ∧ i.isAccepted = true ∧
            i.is_main = true) :=
  ⟨rfl, main_image_with_base_characterization sampleDb sampleSquat 10 rfl⟩

end Wger
